import Mathlib

/-!
Verification of the student-dashboard application (`app.py`).

The application is a single Python module: a `Student` class (with a
`GraduateStudent` subclass overriding `get_grade`), a `StudentManager`
holding an ordered list of students, a `PerformanceAnalyzer`, and a
Streamlit UI with four tabs (Records / Analysis / Visualizations /
Save-Load) plus a sidebar form for adding students.

Modelling conventions:
* Marks are Python ints; `np.mean` over a non-empty integer sequence is
  modelled as the exact rational mean (the float64 rounding of these
  small integer means never crosses an integer threshold for inputs of
  realistic size).  `np.mean` of an empty sequence is NaN; we model that
  as `none`, and every `>=` comparison against NaN is `false`, exactly as
  in IEEE semantics.
* Python strings are modelled as `String`, with the character-level
  operations (`split(",")`, `strip()`, `int(...)`, `eval` of a list
  literal) modelled on `List Char`.
* Exceptions are modelled with explicit error constructors (`Option` /
  dedicated inductives); a `none` / error value marks the point where the
  Python code raises.
-/

namespace Dashboard

/-- The two classes of the source: `Student` (standard letter grades) and
its subclass `GraduateStudent` (pass/fail). -/
inductive StudentType
  | normal
  | graduate
deriving DecidableEq, Repr

/-- A student record: `Student.__init__(self, name, roll, marks)`.  The
`stype` tag models which class the object was constructed from. -/
structure Student where
  name : String
  roll : String
  marks : List Int
  stype : StudentType
deriving DecidableEq, Repr

/-- `np.mean` on a list of ints: `none` models NaN (empty input),
otherwise the exact rational mean. -/
def npMean (marks : List Int) : Option ℚ :=
  if marks = [] then none
  else some ((marks.sum : ℚ) / marks.length)

/-- Float comparison `avg >= t` where `avg` may be NaN (`none`): any
comparison against NaN is false. -/
def optGe (x : Option ℚ) (t : ℚ) : Bool :=
  match x with
  | none => false
  | some q => decide (t ≤ q)

/-- `Student.get_marks`. -/
def Student.get_marks (s : Student) : List Int :=
  s.marks

/-- `get_grade`: dispatches on the class.  `Student.get_grade` walks the
threshold chain 90/75/50; `GraduateStudent.get_grade` checks 40. -/
def Student.get_grade (s : Student) : String :=
  match s.stype with
  | .normal =>
    let avg := npMean s.marks
    if optGe avg 90 then "A"
    else if optGe avg 75 then "B"
    else if optGe avg 50 then "C"
    else "F"
  | .graduate =>
    let avg := npMean s.marks
    if optGe avg 40 then "Pass" else "Fail"

/-- `StudentManager`: an ordered collection of students. -/
structure StudentManager where
  students : List Student
deriving DecidableEq, Repr

/-- `StudentManager.__init__`: starts empty. -/
def StudentManager.empty : StudentManager :=
  ⟨[]⟩

/-- `StudentManager.add_student`: appends to the list. -/
def StudentManager.add_student (m : StudentManager) (s : Student) : StudentManager :=
  ⟨m.students ++ [s]⟩

/-- One row of the DataFrame produced by `to_dataframe`: columns
Name, Roll, Marks, Grade. -/
structure Row where
  Name : String
  Roll : String
  Marks : List Int
  Grade : String
deriving DecidableEq, Repr

/-- `StudentManager.to_dataframe`: one row per student, in list order,
with the Grade column computed by `get_grade` at projection time.  On an
empty manager the source returns `pd.DataFrame(columns=[...])`, an empty
frame with the four columns defined; here that is the empty row list
(the columns are the fields of `Row`). -/
def StudentManager.to_dataframe (m : StudentManager) : List Row :=
  m.students.map fun s => ⟨s.name, s.roll, s.marks, s.get_grade⟩

/-- The statistics dictionary built by `PerformanceAnalyzer.analyze`. -/
structure Stats where
  averageMarks : ℚ
  highestMarks : Int
  lowestMarks : Int
deriving DecidableEq, Repr

/-- Result of `analyze`: the empty dict `{}` for an empty frame, a stats
dict otherwise; `raises` marks the `ValueError` of `np.max` / `np.min`
when the concatenation of all marks is empty. -/
inductive AnalyzeResult
  | emptyDict
  | stats (s : Stats)
  | raises
deriving DecidableEq, Repr

/-- `PerformanceAnalyzer.analyze(df)`: `{}` on an empty frame, else
mean/max/min of `np.concatenate(df["Marks"].values)`. -/
def PerformanceAnalyzer.analyze (df : List Row) : AnalyzeResult :=
  if df = [] then .emptyDict
  else
    let all_marks := (df.map Row.Marks).flatten
    match all_marks.max?, all_marks.min?, npMean all_marks with
    | some mx, some mn, some avg => .stats ⟨avg, mx, mn⟩
    | _, _, _ => .raises

/-! ### Character-level models of the Python string operations -/

/-- `str.strip()` on the left: drop leading whitespace. -/
def trimLeft (cs : List Char) : List Char :=
  cs.dropWhile Char.isWhitespace

/-- `str.strip()`: drop leading and trailing whitespace. -/
def trimChars (cs : List Char) : List Char :=
  ((trimLeft cs).reverse.dropWhile Char.isWhitespace).reverse

/-- `str.split(",")`: split at every comma; `"".split(",") == [""]`. -/
def splitOnComma : List Char → List (List Char)
  | [] => [[]]
  | c :: rest =>
    if c = ',' then [] :: splitOnComma rest
    else
      match splitOnComma rest with
      | t :: ts => (c :: t) :: ts
      | [] => [[c]]

/-- Tail of a Python integer literal after its first digit: further
digits, with single underscores allowed only between digits. -/
def digitsTail : List Char → Bool
  | [] => true
  | [c] => c.isDigit
  | c :: c2 :: rest =>
    if c = '_' then c2.isDigit && digitsTail rest
    else c.isDigit && digitsTail (c2 :: rest)

/-- A non-empty run of ASCII digits with single underscores between
digit groups — the body Python's `int` accepts after the optional sign. -/
def pyIntDigits : List Char → Bool
  | [] => false
  | c :: rest => c.isDigit && digitsTail rest

/-- Decimal value of a digit string (underscores already removed). -/
def charsToNat (cs : List Char) : Nat :=
  cs.foldl (fun n c => 10 * n + (c.toNat - '0'.toNat)) 0

/-- Python `int(s)` on a string: strips whitespace, accepts an optional
sign and ASCII digits with underscore separators; `none` models the
`ValueError` raised on anything else.  (Unicode digits, which Python also
accepts, are not modelled — the app's inputs are ASCII.) -/
def pyInt (s : List Char) : Option Int :=
  match trimChars s with
  | [] => none
  | c :: rest =>
    if c = '+' then
      if pyIntDigits rest then some ((charsToNat (rest.filter (· ≠ '_')) : Int)) else none
    else if c = '-' then
      if pyIntDigits rest then some (-(charsToNat (rest.filter (· ≠ '_')) : Int)) else none
    else
      if pyIntDigits (c :: rest) then
        some ((charsToNat ((c :: rest).filter (· ≠ '_')) : Int))
      else none

/-- Run `pyInt` over every token, failing on the first bad one — the
fail-fast of an exception escaping a list comprehension. -/
def parseTokens : List (List Char) → Option (List Int)
  | [] => some []
  | t :: ts =>
    match pyInt t, parseTokens ts with
    | some v, some vs => some (v :: vs)
    | _, _ => none

/-- The marks-field parser of the sidebar form:
`[int(m.strip()) for m in marks.split(",")]`; `none` models the
exception caught by the form's `try`/`except`. -/
def parseMarks (marks : String) : Option (List Int) :=
  parseTokens ((splitOnComma marks.toList).map trimChars)

/-- What the sidebar shows after a submission: the success banner or the
generic validation error from the `except` branch. -/
inductive SidebarMsg
  | success (name : String) (st_type : String)
  | invalidMarks
deriving DecidableEq, Repr

/-- The `if submit:` handler of the sidebar form: parse the marks text,
construct a `GraduateStudent` or `Student`, append it; on any parse
failure fall into `except` — no student is added. -/
def handleSubmit (manager : StudentManager) (name roll marks st_type : String) :
    StudentManager × SidebarMsg :=
  match parseMarks marks with
  | some marks_list =>
    let student : Student :=
      if st_type = "Graduate" then ⟨name, roll, marks_list, .graduate⟩
      else ⟨name, roll, marks_list, .normal⟩
    (manager.add_student student, .success name st_type)
  | none => (manager, .invalidMarks)

/-! ### The four tabs -/

/-- What the Records tab renders. -/
inductive RecordsView
  | info (msg : String)
  | dataframeView (rows : List Row)
deriving DecidableEq, Repr

/-- Records tab: `st.dataframe(df)`, or `st.info` when the frame is empty. -/
def recordsTab (m : StudentManager) : RecordsView :=
  let df := m.to_dataframe
  if df = [] then .info "No records available."
  else .dataframeView df

/-- What the Analysis tab renders. -/
inductive AnalysisView
  | info (msg : String)
  | statsJson (r : AnalyzeResult)
deriving DecidableEq, Repr

/-- Analysis tab: `st.json(analyzer.analyze(df))`, or `st.info` when the
frame is empty. -/
def analysisTab (m : StudentManager) : AnalysisView :=
  let df := m.to_dataframe
  if df = [] then .info "No students available for analysis."
  else .statsJson (PerformanceAnalyzer.analyze df)

/-- Number of subject columns produced by
`df["Marks"].apply(pd.Series)`: the longest marks list in the frame. -/
def maxMarksLen (df : List Row) : Nat :=
  (df.map fun r => r.Marks.length).foldl max 0

/-- Cell of subject column `Sub(j+1)` for one row: the row's `j`-th mark,
`none` modelling the NaN padding `pd.Series` inserts for short rows. -/
def subCell (r : Row) (j : Nat) : Option Int :=
  r.Marks.get? j

/-- One row of the expanded frame: its marks spread over the
`maxMarksLen` subject columns, NaN-padded. -/
def expandRow (n : Nat) (r : Row) : List (Option Int) :=
  (List.range n).map (subCell r)

/-- The subject columns of the expanded frame, row by row. -/
def expandedMarks (df : List Row) : List (List (Option Int)) :=
  df.map (expandRow (maxMarksLen df))

/-- Subject column `Sub(j+1)` of the expanded frame. -/
def subColumn (df : List Row) (j : Nat) : List (Option Int) :=
  df.map fun r => subCell r j

/-- `pandas.Series.mean`: NaN entries are skipped; all-NaN (or empty)
columns give NaN (`none`). -/
def colMean (col : List (Option Int)) : Option ℚ :=
  npMean (col.filterMap id)

/-- The line chart: `expanded_df[["Sub1", "Sub2", "Sub3"]].mean()`.
Selecting a column the expansion did not produce raises `KeyError`. -/
inductive LineChart
  | keyError
  | chart (means : List (Option ℚ))
deriving DecidableEq, Repr

/-- The line-chart computation of the Visualizations tab: hardcoded to
columns Sub1, Sub2, Sub3, so it raises unless at least one student has
three or more marks. -/
def lineChartOf (df : List Row) : LineChart :=
  if maxMarksLen df < 3 then .keyError
  else .chart [colMean (subColumn df 0), colMean (subColumn df 1), colMean (subColumn df 2)]

/-- What the Visualizations tab renders: the expanded subject columns
(feeding the bar chart) and the line chart, or `st.info` when empty. -/
inductive VizView
  | info (msg : String)
  | rendered (expanded : List (List (Option Int))) (line : LineChart)
deriving DecidableEq, Repr

/-- Visualizations tab. -/
def visualizationsTab (m : StudentManager) : VizView :=
  let df := m.to_dataframe
  if df = [] then .info "No students available for visualization."
  else .rendered (expandedMarks df) (lineChartOf df)

/-! ### Save/Load tab: CSV export and import -/

/-- One row of the exported CSV (after the `Name,Roll,Marks,Grade`
header): each cell is the text pandas writes for it.  The import side
feeds these cells through the `pd.read_csv` model below, which applies
pandas' NA coercion and column-type inference before the upload loop
sees any value. -/
structure CsvRow where
  Name : String
  Roll : String
  Marks : String
  Grade : String
deriving DecidableEq, Repr

/-- Decimal digits, most significant first, with explicit fuel (the
fuel only has to exceed the number of digits; `natReprChars` below
always supplies enough). -/
def natReprAux : Nat → Nat → List Char
  | 0, _ => []
  | fuel + 1, n =>
    if n < 10 then [Char.ofNat ('0'.toNat + n)]
    else natReprAux fuel (n / 10) ++ [Char.ofNat ('0'.toNat + n % 10)]

/-- Decimal digits of a natural number, most significant first —
Python's `str` rendering of a non-negative int. -/
def natReprChars (n : Nat) : List Char :=
  natReprAux (n + 1) n

/-- Python's `str` of an int: optional minus sign then digits. -/
def intReprChars (k : Int) : List Char :=
  if k < 0 then '-' :: natReprChars k.natAbs
  else natReprChars k.natAbs

/-- `", ".join`: the separator Python's `str` puts between list
elements. -/
def joinCommaSpace : List (List Char) → List Char
  | [] => []
  | [t] => t
  | t :: ts => t ++ ',' :: ' ' :: joinCommaSpace ts

/-- Python's `str` of a list of ints, e.g. `[80, 90, 85]` — the text
`DataFrame.to_csv` writes into the Marks cell. -/
def reprIntList (xs : List Int) : String :=
  ⟨'[' :: joinCommaSpace (xs.map intReprChars) ++ [']']⟩

/-- `df.to_csv(index=False)`: the rows of the frame, with the Marks list
rendered as its Python `str`. -/
def exportCSV (df : List Row) : List CsvRow :=
  df.map fun r => ⟨r.Name, r.Roll, reprIntList r.Marks, r.Grade⟩

/-- What the Save/Load tab shows for exporting: the download button with
the CSV data when the frame is non-empty, nothing at all otherwise. -/
inductive ExportView
  | downloadButton (csv : List CsvRow)
  | absent
deriving DecidableEq, Repr

/-- The `st.download_button` of the Save/Load tab: shown only when the
frame is non-empty; on an empty store nothing is rendered (no message). -/
def exportControl (m : StudentManager) : ExportView :=
  let df := m.to_dataframe
  if df = [] then .absent
  else .downloadButton (exportCSV df)

/-- `eval(row["Marks"])` restricted to flat int-list literals
`[a, b, c]`: the only shape the app itself exports.  `none` models an
exception escaping `eval` (or a value that is not an int list) on any
other input. -/
def evalIntList (s : String) : Option (List Int) :=
  match trimChars s.toList with
  | '[' :: rest =>
    match rest.reverse with
    | ']' :: revInner =>
      let inner := revInner.reverse
      if trimChars inner = [] then some []
      else parseTokens (splitOnComma inner)
    | _ => none
  | _ => none

/-- A cell value as pandas materializes it after `pd.read_csv`: missing
(NaN), an inferred integer, or text.  The model covers the regions the
claims touch — integer-typed columns and object columns with NA
coercion; columns pandas would promote to float64 or bool (float-like
or boolean-like text) are outside the model, and `pdPlainText` below is
strict enough that every theorem stated over the model stays inside the
modelled region. -/
inductive PdValue
  | nan
  | int (k : Int)
  | str (s : String)
deriving DecidableEq, Repr

/-- The default NA tokens of `pd.read_csv`: a cell reading as one of
these becomes NaN in any column. -/
def pdNaText (s : String) : Bool :=
  s = "" || s = "#N/A" || s = "#N/A N/A" || s = "#NA" || s = "-1.#IND"
    || s = "-1.#QNAN" || s = "-NaN" || s = "-nan" || s = "1.#IND" || s = "1.#QNAN"
    || s = "<NA>" || s = "N/A" || s = "NA" || s = "NULL" || s = "NaN"
    || s = "None" || s = "n/a" || s = "nan" || s = "null"

/-- Body of `pdIsIntText` on the cell's characters. -/
def pdIntBody : List Char → Bool
  | [] => false
  | c :: rest =>
    if c = '+' || c = '-' then !rest.isEmpty && rest.all Char.isDigit
    else (c :: rest).all Char.isDigit

/-- Text of a pandas integer cell: optional sign then ASCII digits
(pandas' tokenizer, unlike Python's `int`, takes no underscores). -/
def pdIsIntText (s : String) : Bool :=
  pdIntBody s.toList

/-- Value of a pandas integer cell. -/
def pdIntVal (s : String) : Int :=
  match s.toList with
  | '-' :: rest => -(charsToNat rest : Int)
  | '+' :: rest => (charsToNat rest : Int)
  | l => (charsToNat l : Int)

/-- One column of an uploaded CSV, with pandas' per-column type
inference: a column whose every cell is integer text becomes an int64
column; otherwise the column stays object — cells are kept as text,
except NA tokens, which become NaN. -/
def readColumn (cells : List String) : List PdValue :=
  if cells.all pdIsIntText then cells.map (fun s => .int (pdIntVal s))
  else cells.map (fun s => if pdNaText s then .nan else .str s)

/-- A materialized row of the uploaded frame — the three columns the
upload loop reads (the Grade column is parsed too but never accessed). -/
structure PdRow where
  Name : PdValue
  Roll : PdValue
  Marks : PdValue
deriving DecidableEq, Repr

/-- Rebuild rows from the three materialized columns. -/
def zipCols : List PdValue → List PdValue → List PdValue → List PdRow
  | n :: ns, r :: rs, m :: ms => ⟨n, r, m⟩ :: zipCols ns rs ms
  | _, _, _ => []

/-- Model of `pd.read_csv` on an uploaded CSV: column-wise type
inference over the cell texts, then the rows rebuilt. -/
def readCSV (rows : List CsvRow) : List PdRow :=
  zipCols (readColumn (rows.map CsvRow.Name)) (readColumn (rows.map CsvRow.Roll))
    (readColumn (rows.map CsvRow.Marks))

/-- Rendering of a pandas value back to text.  An imported record's
name and roll are whatever values pandas produced (possibly NaN or an
int); the program only ever feeds them to `str`-rendering sinks — the
table view and CSV re-export — so a pandas value is modelled by its
Python `str` rendering. -/
def pdValueText : PdValue → String
  | .nan => "nan"
  | .int k => ⟨intReprChars k⟩
  | .str s => s

/-- Outcome of the CSV upload loop: `ok` when every row was appended;
`raises` when `eval` of a Marks cell failed — the exception is unhandled
and the manager keeps the rows appended before it; `nonStrMarks` marks
the modelling boundary where `row["Marks"]` is not a string (pandas read
the whole Marks column as integers), so the source's `isinstance` guard
passes a scalar through as the marks — a state the integer-sequence
record model cannot represent. -/
inductive ImportResult
  | ok (manager : StudentManager)
  | raises (manager : StudentManager)
  | nonStrMarks (manager : StudentManager)
deriving DecidableEq, Repr

/-- The upload loop of the Save/Load tab over the materialized rows:
`eval` the Marks text and append a plain `Student` (standard policy,
regardless of the original class).  A parse failure raises out of the
loop with the earlier appends already done. -/
def importRows (manager : StudentManager) : List PdRow → ImportResult
  | [] => .ok manager
  | row :: rest =>
    match row.Marks with
    | .str s =>
      match evalIntList s with
      | some marks_list =>
        importRows
          (manager.add_student
            ⟨pdValueText row.Name, pdValueText row.Roll, marks_list, .normal⟩)
          rest
      | none => .raises manager
    | _ => .nonStrMarks manager

/-- The whole CSV upload handler: `pd.read_csv`, then the append loop. -/
def importCSV (manager : StudentManager) (rows : List CsvRow) : ImportResult :=
  importRows manager (readCSV rows)

/-- Character class pandas' numeric sniffing draws on: digits, signs,
decimal point and exponent letters. -/
def pdNumericChar (c : Char) : Bool :=
  c.isDigit || c = '+' || c = '-' || c = '.' || c = 'e' || c = 'E'

/-- Boolean and infinity words pandas converts when a whole column
consists of them. -/
def pdSpecialWord (s : String) : Bool :=
  let t : String := ⟨(trimChars s.toList).map Char.toLower⟩
  t = "true" || t = "false" || t = "inf" || t = "infinity"
    || t = "+inf" || t = "-inf" || t = "+infinity" || t = "-infinity"

/-- Cell text that `pd.read_csv` is guaranteed to hand back unchanged:
not an NA token, not a boolean/infinity word, and containing at least
one non-whitespace character outside the numeric character class — so
no integer, float or boolean inference can touch its column's type on
its account.  Deliberately conservative: it rejects some cells pandas
would in fact keep (for example all-punctuation numeric-class text), so
theorems hypothesised on it never leave the modelled region. -/
def pdPlainText (s : String) : Bool :=
  !pdNaText s && !pdSpecialWord s
    && s.toList.any (fun c => !pdNumericChar c && !c.isWhitespace)

/-! ### Spec-side grading policies (for the refinement claims) -/

/-- The standard policy exactly as the specification words it:
`avg>=90→"A"`, `avg>=75→"B"`, `avg>=50→"C"`, else `"F"`, highest
threshold first, inclusive lower bounds. -/
def specStandardGrade (avg : ℚ) : String :=
  if avg ≥ 90 then "A"
  else if avg ≥ 75 then "B"
  else if avg ≥ 50 then "C"
  else "F"

/-- The alternate (graduate) policy as the specification words it:
`avg>=40→"Pass"`, else `"Fail"`. -/
def specAlternateGrade (avg : ℚ) : String :=
  if avg ≥ 40 then "Pass" else "Fail"

/-! ### Theorems -/

theorem npMean_cons (a : Int) (l : List Int) :
    npMean (a :: l) = some (((a :: l).sum : ℚ) / (a :: l).length) := by
  simp [npMean]

theorem get_grade_normal_eq_spec (name roll : String) (marks : List Int) (h : marks ≠ []) :
    Student.get_grade ⟨name, roll, marks, .normal⟩
      = specStandardGrade ((marks.sum : ℚ) / marks.length) := by
  obtain ⟨a, l, rfl⟩ := List.exists_cons_of_ne_nil h
  simp only [Student.get_grade, npMean_cons, optGe, specStandardGrade, ge_iff_le,
    decide_eq_true_eq]

theorem get_grade_graduate_eq_spec (name roll : String) (marks : List Int) (h : marks ≠ []) :
    Student.get_grade ⟨name, roll, marks, .graduate⟩
      = specAlternateGrade ((marks.sum : ℚ) / marks.length) := by
  obtain ⟨a, l, rfl⟩ := List.exists_cons_of_ne_nil h
  simp only [Student.get_grade, npMean_cons, optGe, specAlternateGrade, ge_iff_le,
    decide_eq_true_eq]

theorem specStandardGrade_mem (avg : ℚ) :
    specStandardGrade avg ∈ ["A", "B", "C", "F"] := by
  unfold specStandardGrade
  split_ifs <;> simp

/-- C1: for every non-empty integer mark list, the standard policy of
`Student.get_grade` equals the spec's threshold chain on the exact mean
(highest threshold first, inclusive lower bounds), always yielding one of
A/B/C/F, and the boundary means 90, 89, 75, 74, 50, 49 (realized by
single-mark students) map to A, B, B, C, C, F. -/
theorem standard_policy_thresholds (name roll : String) (marks : List Int) (h : marks ≠ []) :
    Student.get_grade ⟨name, roll, marks, .normal⟩
        = specStandardGrade ((marks.sum : ℚ) / marks.length)
      ∧ Student.get_grade ⟨name, roll, marks, .normal⟩ ∈ ["A", "B", "C", "F"]
      ∧ [[90], [89], [75], [74], [50], [49]].map
          (fun ms => Student.get_grade ⟨name, roll, ms, StudentType.normal⟩)
          = ["A", "B", "B", "C", "C", "F"] := by
  refine ⟨get_grade_normal_eq_spec name roll marks h, ?_, ?_⟩
  · rw [get_grade_normal_eq_spec name roll marks h]
    exact specStandardGrade_mem _
  · simp only [List.map_cons, List.map_nil]
    norm_num [Student.get_grade, npMean, optGe]

/-- C1 witness: the theorem instantiated at the student
("x", "1", [95]). -/
theorem standard_policy_thresholds_witness :
    Student.get_grade ⟨"x", "1", [95], .normal⟩
        = specStandardGrade ((([95] : List Int).sum : ℚ) / ([95] : List Int).length)
      ∧ Student.get_grade ⟨"x", "1", [95], .normal⟩ ∈ ["A", "B", "C", "F"]
      ∧ [[90], [89], [75], [74], [50], [49]].map
          (fun ms => Student.get_grade ⟨"x", "1", ms, StudentType.normal⟩)
          = ["A", "B", "B", "C", "C", "F"] :=
  standard_policy_thresholds "x" "1" [95] (by simp)

/-- C2: for every non-empty integer mark list, the graduate policy of
`get_grade` equals the spec's 40-threshold pass/fail rule on the exact
mean; a mean of exactly 40 gives "Pass" and 39 gives "Fail". -/
theorem alternate_policy_thresholds (name roll : String) (marks : List Int) (h : marks ≠ []) :
    Student.get_grade ⟨name, roll, marks, .graduate⟩
        = specAlternateGrade ((marks.sum : ℚ) / marks.length)
      ∧ Student.get_grade ⟨name, roll, [40], .graduate⟩ = "Pass"
      ∧ Student.get_grade ⟨name, roll, [39], .graduate⟩ = "Fail" := by
  refine ⟨get_grade_graduate_eq_spec name roll marks h, ?_, ?_⟩ <;>
    norm_num [Student.get_grade, npMean, optGe]

/-- C2 witness: the theorem instantiated at the student
("y", "2", [41]). -/
theorem alternate_policy_thresholds_witness :
    Student.get_grade ⟨"y", "2", [41], .graduate⟩
        = specAlternateGrade ((([41] : List Int).sum : ℚ) / ([41] : List Int).length)
      ∧ Student.get_grade ⟨"y", "2", [40], .graduate⟩ = "Pass"
      ∧ Student.get_grade ⟨"y", "2", [39], .graduate⟩ = "Fail" :=
  alternate_policy_thresholds "y" "2" [41] (by simp)

/-- C10: a record constructed with an empty marks list still gets a
grade: the mean is NaN (modelled `none`), every threshold comparison is
false, and both policies fall through to the final branch — "F" for the
standard policy, "Fail" for the graduate policy. -/
theorem empty_marks_grades (name roll : String) :
    Student.get_grade ⟨name, roll, [], .normal⟩ = "F"
      ∧ Student.get_grade ⟨name, roll, [], .graduate⟩ = "Fail" := by
  constructor <;> simp [Student.get_grade, npMean, optGe]

/-- C3: `analyze` of an empty frame is the empty dict; on a non-empty
frame whose rows carry at least one mark overall, it flattens all the
rows' mark lists in order and returns their exact mean together with
their maximum and minimum; on the store `[[80, 90], [70]]` this is
average 80, maximum 90, minimum 70. -/
theorem analyze_flat_stats (df : List Row) (h : df ≠ [])
    (h2 : (df.map Row.Marks).flatten ≠ []) :
    PerformanceAnalyzer.analyze df
        = .stats ⟨((df.map Row.Marks).flatten.sum : ℚ) / (df.map Row.Marks).flatten.length,
            (df.map Row.Marks).flatten.max?.getD 0,
            (df.map Row.Marks).flatten.min?.getD 0⟩
      ∧ PerformanceAnalyzer.analyze [] = .emptyDict
      ∧ PerformanceAnalyzer.analyze [⟨"a", "1", [80, 90], "B"⟩, ⟨"b", "2", [70], "C"⟩]
          = .stats ⟨80, 90, 70⟩ := by
  refine ⟨?_, rfl, ?_⟩
  · obtain ⟨mx, hmx⟩ : ∃ mx, (df.map Row.Marks).flatten.max? = some mx := by
      cases hm : (df.map Row.Marks).flatten.max? with
      | none => exact absurd (List.max?_eq_none_iff.mp hm) h2
      | some mx => exact ⟨mx, rfl⟩
    obtain ⟨mn, hmn⟩ : ∃ mn, (df.map Row.Marks).flatten.min? = some mn := by
      cases hm : (df.map Row.Marks).flatten.min? with
      | none => exact absurd (List.min?_eq_none_iff.mp hm) h2
      | some mn => exact ⟨mn, rfl⟩
    simp only [PerformanceAnalyzer.analyze, if_neg h, hmx, hmn, npMean, if_neg h2,
      Option.getD_some]
  · norm_num [PerformanceAnalyzer.analyze, npMean, List.max?, List.min?]
    rfl

/-- C3 witness: the theorem instantiated at the two-row frame of the
spec's worked example. -/
theorem analyze_flat_stats_witness :
    PerformanceAnalyzer.analyze [⟨"a", "1", [80, 90], "B"⟩, ⟨"b", "2", [70], "C"⟩]
        = .stats ⟨((([⟨"a", "1", [80, 90], "B"⟩, ⟨"b", "2", [70], "C"⟩] : List Row).map
              Row.Marks).flatten.sum : ℚ)
              / (([⟨"a", "1", [80, 90], "B"⟩, ⟨"b", "2", [70], "C"⟩] : List Row).map
              Row.Marks).flatten.length,
            (([⟨"a", "1", [80, 90], "B"⟩, ⟨"b", "2", [70], "C"⟩] : List Row).map
              Row.Marks).flatten.max?.getD 0,
            (([⟨"a", "1", [80, 90], "B"⟩, ⟨"b", "2", [70], "C"⟩] : List Row).map
              Row.Marks).flatten.min?.getD 0⟩
      ∧ PerformanceAnalyzer.analyze [] = .emptyDict
      ∧ PerformanceAnalyzer.analyze [⟨"a", "1", [80, 90], "B"⟩, ⟨"b", "2", [70], "C"⟩]
          = .stats ⟨80, 90, 70⟩ :=
  analyze_flat_stats [⟨"a", "1", [80, 90], "B"⟩, ⟨"b", "2", [70], "C"⟩]
    (by simp) (by simp)

theorem foldl_add_student (m0 : StudentManager) (ss : List Student) :
    (ss.foldl StudentManager.add_student m0).students = m0.students ++ ss := by
  induction ss generalizing m0 with
  | nil => simp
  | cons s rest ih =>
    simp [List.foldl_cons, ih, StudentManager.add_student]

/-- C4: adding any list of students one by one to the empty manager and
projecting gives exactly one row per student, in insertion order, each
row carrying the student's name, roll and marks with the Grade column
computed by `get_grade` at projection time. -/
theorem to_dataframe_insertion_order (ss : List Student) :
    (ss.foldl StudentManager.add_student StudentManager.empty).to_dataframe
        = ss.map (fun s => ⟨s.name, s.roll, s.marks, s.get_grade⟩)
      ∧ (ss.foldl StudentManager.add_student StudentManager.empty).to_dataframe.length
        = ss.length := by
  have hrows : (ss.foldl StudentManager.add_student StudentManager.empty).students = ss := by
    simp [foldl_add_student, StudentManager.empty]
  constructor
  · simp [StudentManager.to_dataframe, hrows]
  · simp [StudentManager.to_dataframe, hrows]

/-- C5: whenever the marks text fails integer parsing the submission
handler reports the validation error and returns the store unchanged —
no record is created; in particular `"80, 90, abc"` and the empty string
both fail parsing. -/
theorem invalid_marks_rejected (manager : StudentManager) (name roll marks st_type : String)
    (h : parseMarks marks = none) :
    handleSubmit manager name roll marks st_type = (manager, .invalidMarks)
      ∧ parseMarks "80, 90, abc" = none
      ∧ parseMarks "" = none := by
  refine ⟨?_, by decide, by decide⟩
  simp [handleSubmit, h]

/-- C5 witness: the theorem instantiated at the spec's example
submission `"80, 90, abc"` against the empty store. -/
theorem invalid_marks_rejected_witness :
    handleSubmit StudentManager.empty "n" "1" "80, 90, abc" "Normal"
        = (StudentManager.empty, .invalidMarks)
      ∧ parseMarks "80, 90, abc" = none
      ∧ parseMarks "" = none :=
  invalid_marks_rejected StudentManager.empty "n" "1" "80, 90, abc" "Normal" (by decide)

/-- C7 counterexample: on the empty store the Save/Load tab's export
condition renders nothing at all — the download button is omitted with
no informational "no data" message, so the claim that every empty-store
condition (export included) is rendered as an informational state fails
here. -/
theorem empty_store_export_not_informational :
    exportControl StudentManager.empty = ExportView.absent :=
  rfl

/-- C7 amended: on the empty store `to_dataframe` is the defined empty
frame (zero rows, columns fixed by `Row`); the Records, Analysis and
Visualizations tabs each render an informational "no data" message; the
export control is simply omitted — a defined no-op, not an informational
message, and in no case an unhandled failure. -/
theorem empty_store_views :
    StudentManager.to_dataframe StudentManager.empty = []
      ∧ recordsTab StudentManager.empty = .info "No records available."
      ∧ analysisTab StudentManager.empty = .info "No students available for analysis."
      ∧ visualizationsTab StudentManager.empty = .info "No students available for visualization."
      ∧ exportControl StudentManager.empty = .absent :=
  ⟨rfl, rfl, rfl, rfl, rfl⟩

/-- C8: a CSV whose second row has a malformed Marks cell makes the
upload loop raise out unhandled: the first row has already been appended
to the store, the third is never processed — the import is fail-fast and
not atomic. -/
theorem import_fail_fast :
    importCSV StudentManager.empty
        [⟨"a", "1", "[80, 90]", "C"⟩, ⟨"b", "2", "oops", "F"⟩, ⟨"c", "3", "[70]", "C"⟩]
      = .raises ⟨[⟨"a", "1", [80, 90], .normal⟩]⟩
      ∧ evalIntList "oops" = none := by
  decide

theorem length_expandRow (n : Nat) (r : Row) : (expandRow n r).length = n := by
  simp [expandRow]

theorem map_length_expandedMarks (df : List Row) :
    (expandedMarks df).map List.length = List.replicate df.length (maxMarksLen df) := by
  induction df with
  | nil => rfl
  | cons r rest ih =>
    simp [expandedMarks, length_expandRow, List.replicate, List.map_map]
    simp [Function.comp_def, length_expandRow, List.map_const']

/-- C9 counterexample: a non-empty store whose longest mark list has
only two entries — the expansion produces columns Sub1 and Sub2 only, so
`expanded_df[["Sub1", "Sub2", "Sub3"]]` raises `KeyError` and no line
chart of three column means is displayed, refuting the claim's
"regardless of the actual mark-sequence lengths". -/
theorem line_chart_two_marks_keyerror :
    visualizationsTab ⟨[⟨"a", "1", [80, 90], .normal⟩]⟩
      = .rendered [[some 80, some 90]] .keyError := by
  rfl

/-- C9 amended: for every non-empty store in which some record has at
least three marks, the Visualizations tab renders each record's marks
expanded (NaN-padded) to the maximum observed length — one cell per
subject column Sub1 … Sub(max) — and the line chart of the NaN-skipping
means of exactly the first three subject columns; with fewer than three
columns the selection raises `KeyError` instead. -/
theorem visualization_line_chart (m : StudentManager) (h : m.to_dataframe ≠ [])
    (h3 : 3 ≤ maxMarksLen m.to_dataframe) :
    visualizationsTab m
        = .rendered (expandedMarks m.to_dataframe)
            (.chart [colMean (subColumn m.to_dataframe 0),
              colMean (subColumn m.to_dataframe 1),
              colMean (subColumn m.to_dataframe 2)])
      ∧ (expandedMarks m.to_dataframe).map List.length
          = List.replicate m.to_dataframe.length (maxMarksLen m.to_dataframe) := by
  refine ⟨?_, map_length_expandedMarks _⟩
  simp only [visualizationsTab, if_neg h, lineChartOf, if_neg (by omega : ¬ maxMarksLen m.to_dataframe < 3)]

/-- C9 witness: the amended theorem instantiated at a one-student store
with exactly three marks. -/
theorem visualization_line_chart_witness :
    visualizationsTab ⟨[⟨"a", "1", [80, 90, 85], .normal⟩]⟩
        = .rendered
            (expandedMarks (StudentManager.to_dataframe ⟨[⟨"a", "1", [80, 90, 85], .normal⟩]⟩))
            (.chart [colMean (subColumn (StudentManager.to_dataframe
                ⟨[⟨"a", "1", [80, 90, 85], .normal⟩]⟩) 0),
              colMean (subColumn (StudentManager.to_dataframe
                ⟨[⟨"a", "1", [80, 90, 85], .normal⟩]⟩) 1),
              colMean (subColumn (StudentManager.to_dataframe
                ⟨[⟨"a", "1", [80, 90, 85], .normal⟩]⟩) 2)])
      ∧ (expandedMarks (StudentManager.to_dataframe
            ⟨[⟨"a", "1", [80, 90, 85], .normal⟩]⟩)).map List.length
          = List.replicate (StudentManager.to_dataframe
              ⟨[⟨"a", "1", [80, 90, 85], .normal⟩]⟩).length
            (maxMarksLen (StudentManager.to_dataframe ⟨[⟨"a", "1", [80, 90, 85], .normal⟩]⟩)) :=
  visualization_line_chart ⟨[⟨"a", "1", [80, 90, 85], .normal⟩]⟩
    (by simp [StudentManager.to_dataframe])
    (by simp [maxMarksLen, StudentManager.to_dataframe])

/-! ### Lemmas on the character-level operations, towards the CSV
round trip -/

theorem trimLeft_cons_of_ws (c : Char) (l : List Char) (h : c.isWhitespace = true) :
    trimLeft (c :: l) = trimLeft l := by
  simp [trimLeft, List.dropWhile_cons, h]

theorem trimChars_cons_space (l : List Char) :
    trimChars (' ' :: l) = trimChars l := by
  simp [trimChars, trimLeft_cons_of_ws ' ' l (by decide)]

theorem trimChars_of_no_ws (l : List Char) (h : ∀ c ∈ l, c.isWhitespace = false) :
    trimChars l = l := by
  have h1 : trimLeft l = l := by
    cases l with
    | nil => rfl
    | cons c t => simp [trimLeft, List.dropWhile_cons, h c (by simp)]
  rw [trimChars, h1]
  cases hr : l.reverse with
  | nil =>
    have : l = [] := by simpa using congrArg List.reverse hr
    simp [this]
  | cons c t =>
    have hc : c ∈ l := by
      rw [← List.mem_reverse, hr]
      simp
    rw [List.dropWhile_cons]
    simp only [h c hc]
    simp only [Bool.false_eq_true, if_false]
    rw [← hr, List.reverse_reverse]

theorem dropWhile_nil_all {p : Char → Bool} (l : List Char) (h : l.dropWhile p = []) :
    ∀ c ∈ l, p c = true := by
  induction l with
  | nil => simp
  | cons c t ih =>
    rw [List.dropWhile_cons] at h
    by_cases hp : p c = true
    · rw [if_pos hp] at h
      intro d hd
      rcases List.mem_cons.mp hd with rfl | hd2
      · exact hp
      · exact ih h d hd2
    · rw [if_neg hp] at h
      exact absurd h (by simp)

theorem ws_of_trimChars_nil (l : List Char) (h : trimChars l = []) :
    ∀ c ∈ l, c.isWhitespace = true := by
  rw [trimChars] at h
  have h2 : (trimLeft l).reverse.dropWhile Char.isWhitespace = [] := by
    simpa using congrArg List.reverse h
  have h3 : ∀ c ∈ trimLeft l, c.isWhitespace = true := by
    intro c hc
    exact dropWhile_nil_all _ h2 c (List.mem_reverse.mpr hc)
  clear h h2
  induction l with
  | nil => simp
  | cons c t ih =>
    by_cases hw : c.isWhitespace = true
    · intro d hd
      rcases List.mem_cons.mp hd with rfl | hd2
      · exact hw
      · exact ih (by rwa [trimLeft_cons_of_ws c t hw] at h3) d hd2
    · exfalso
      apply hw
      apply h3
      rw [trimLeft, List.dropWhile_cons, if_neg hw]
      simp

theorem trimChars_ne_nil (l : List Char) (c : Char) (hc : c ∈ l)
    (hw : c.isWhitespace = false) : trimChars l ≠ [] := by
  intro h
  rw [ws_of_trimChars_nil l h c hc] at hw
  cases hw

theorem digitChar_facts (d : Nat) (h : d < 10) :
    (Char.ofNat ('0'.toNat + d)).isDigit = true
      ∧ (Char.ofNat ('0'.toNat + d)).toNat - '0'.toNat = d := by
  interval_cases d <;> exact ⟨by decide, by decide⟩

theorem digit_ne_underscore (c : Char) (h : c.isDigit = true) : c ≠ '_' := by
  intro e
  subst e
  exact absurd h (by decide)

theorem digit_ne_comma (c : Char) (h : c.isDigit = true) : c ≠ ',' := by
  intro e
  subst e
  exact absurd h (by decide)

theorem digit_ne_plus (c : Char) (h : c.isDigit = true) : c ≠ '+' := by
  intro e
  subst e
  exact absurd h (by decide)

theorem digit_ne_minus (c : Char) (h : c.isDigit = true) : c ≠ '-' := by
  intro e
  subst e
  exact absurd h (by decide)

theorem digit_not_ws (c : Char) (h : c.isDigit = true) : c.isWhitespace = false := by
  by_contra hw
  rw [Bool.not_eq_false] at hw
  have : ((c = ' ' ∨ c = '\t') ∨ c = '\x0d') ∨ c = '\n' := by
    simpa [Char.isWhitespace, decide_eq_true_eq] using hw
  rcases this with ((rfl | rfl) | rfl) | rfl <;> exact absurd h (by decide)

theorem charsToNat_append_digit (l : List Char) (c : Char) :
    charsToNat (l ++ [c]) = 10 * charsToNat l + (c.toNat - '0'.toNat) := by
  simp [charsToNat, List.foldl_append]

theorem natReprAux_spec (fuel : Nat) :
    ∀ n : Nat, n < fuel →
      (∀ c ∈ natReprAux fuel n, c.isDigit = true)
        ∧ natReprAux fuel n ≠ []
        ∧ charsToNat (natReprAux fuel n) = n := by
  induction fuel with
  | zero => intro n h; omega
  | succ f ih =>
    intro n h
    simp only [natReprAux]
    by_cases h10 : n < 10
    · rw [if_pos h10]
      refine ⟨?_, by simp, ?_⟩
      · intro c hc
        rw [List.mem_singleton.mp hc]
        exact (digitChar_facts n h10).1
      · simp only [charsToNat, List.foldl_cons, List.foldl_nil, Nat.mul_zero, Nat.zero_add]
        exact (digitChar_facts n h10).2
    · rw [if_neg h10]
      have hrec : n / 10 < f :=
        lt_of_lt_of_le (Nat.div_lt_self (by omega) (by omega)) (by omega)
      obtain ⟨ihd, ihn, ihv⟩ := ih (n / 10) hrec
      refine ⟨?_, by simp, ?_⟩
      · intro c hc
        rcases List.mem_append.mp hc with h1 | h2
        · exact ihd c h1
        · rw [List.mem_singleton.mp h2]
          exact (digitChar_facts _ (Nat.mod_lt _ (by omega))).1
      · rw [charsToNat_append_digit, ihv,
          (digitChar_facts (n % 10) (Nat.mod_lt _ (by omega))).2]
        omega

theorem natReprChars_digits (n : Nat) : ∀ c ∈ natReprChars n, c.isDigit = true :=
  (natReprAux_spec (n + 1) n (by omega)).1

theorem natReprChars_ne_nil (n : Nat) : natReprChars n ≠ [] :=
  (natReprAux_spec (n + 1) n (by omega)).2.1

theorem charsToNat_natReprChars (n : Nat) : charsToNat (natReprChars n) = n :=
  (natReprAux_spec (n + 1) n (by omega)).2.2

theorem digitsTail_of_digits (l : List Char) (h : ∀ c ∈ l, c.isDigit = true) :
    digitsTail l = true := by
  induction l with
  | nil => rfl
  | cons c t ih =>
    have hc := h c (by simp)
    have iht : digitsTail t = true := ih (fun d hd => h d (by simp [hd]))
    cases t with
    | nil => simpa [digitsTail] using hc
    | cons c2 t2 =>
      rw [digitsTail, if_neg (digit_ne_underscore c hc)]
      simp [hc, iht]

theorem pyIntDigits_of_digits (l : List Char) (h0 : l ≠ []) (h : ∀ c ∈ l, c.isDigit = true) :
    pyIntDigits l = true := by
  obtain ⟨c, t, rfl⟩ := List.exists_cons_of_ne_nil h0
  simp [pyIntDigits, h c (by simp), digitsTail_of_digits t (fun d hd => h d (by simp [hd]))]

theorem filter_ne_underscore_of_digits (l : List Char) (h : ∀ c ∈ l, c.isDigit = true) :
    l.filter (fun c => c ≠ '_') = l := by
  apply List.filter_eq_self.mpr
  intro c hc
  simpa using digit_ne_underscore c (h c hc)

theorem pyInt_cons_space (l : List Char) : pyInt (' ' :: l) = pyInt l := by
  rw [pyInt, pyInt, trimChars_cons_space]

theorem pyInt_digits_only (l : List Char) (h0 : l ≠ []) (h : ∀ c ∈ l, c.isDigit = true) :
    pyInt l = some ((charsToNat l : Int)) := by
  obtain ⟨c, t, rfl⟩ := List.exists_cons_of_ne_nil h0
  have hc := h c (by simp)
  have ht : trimChars (c :: t) = c :: t :=
    trimChars_of_no_ws _ (fun d hd => digit_not_ws d (h d hd))
  rw [pyInt, ht]
  simp only [if_neg (digit_ne_plus c hc), if_neg (digit_ne_minus c hc)]
  rw [pyIntDigits_of_digits _ (by simp) h]
  rw [filter_ne_underscore_of_digits _ h]
  simp

theorem intReprChars_digit_or_minus (k : Int) :
    ∀ c ∈ intReprChars k, c.isDigit = true ∨ c = '-' := by
  rw [intReprChars]
  split
  · intro c hc
    rcases List.mem_cons.mp hc with rfl | hc2
    · exact Or.inr rfl
    · exact Or.inl (natReprChars_digits _ c hc2)
  · intro c hc
    exact Or.inl (natReprChars_digits _ c hc)

theorem intReprChars_not_ws (k : Int) :
    ∀ c ∈ intReprChars k, c.isWhitespace = false := by
  intro c hc
  rcases intReprChars_digit_or_minus k c hc with h | rfl
  · exact digit_not_ws c h
  · decide

theorem intReprChars_no_comma (k : Int) : ∀ c ∈ intReprChars k, ¬ c = ',' := by
  intro c hc
  rcases intReprChars_digit_or_minus k c hc with h | rfl
  · exact digit_ne_comma c h
  · decide

theorem intReprChars_ne_nil (k : Int) : intReprChars k ≠ [] := by
  rw [intReprChars]
  split
  · simp
  · exact natReprChars_ne_nil _

theorem pyInt_intReprChars (k : Int) : pyInt (intReprChars k) = some k := by
  rw [intReprChars]
  by_cases hk : k < 0
  · rw [if_pos hk]
    have hd := natReprChars_digits k.natAbs
    have ht : trimChars ('-' :: natReprChars k.natAbs) = '-' :: natReprChars k.natAbs := by
      apply trimChars_of_no_ws
      intro c hc
      rcases List.mem_cons.mp hc with rfl | hc2
      · decide
      · exact digit_not_ws c (hd c hc2)
    rw [pyInt, ht]
    simp only [if_neg (by decide : ¬ ('-' : Char) = '+'), if_pos rfl]
    rw [pyIntDigits_of_digits _ (natReprChars_ne_nil _) hd]
    rw [filter_ne_underscore_of_digits _ hd]
    simp only [if_pos rfl, charsToNat_natReprChars]
    simp only [Int.ofNat_natAbs_of_nonpos (le_of_lt hk), neg_neg]
    simp
  · rw [if_neg hk]
    rw [pyInt_digits_only _ (natReprChars_ne_nil _) (natReprChars_digits _)]
    rw [charsToNat_natReprChars]
    congr 1
    exact Int.natAbs_of_nonneg (not_lt.mp hk)

theorem splitOnComma_cons_of_cons (c : Char) (l : List Char) (h : ¬ c = ',')
    (t : List Char) (ts : List (List Char)) (hl : splitOnComma l = t :: ts) :
    splitOnComma (c :: l) = (c :: t) :: ts := by
  rw [splitOnComma, if_neg h, hl]

theorem splitOnComma_no_comma (l : List Char) (h : ∀ c ∈ l, ¬ c = ',') :
    splitOnComma l = [l] := by
  induction l with
  | nil => rfl
  | cons c t ih =>
    exact splitOnComma_cons_of_cons c t (h c (by simp)) t []
      (ih (fun d hd => h d (by simp [hd])))

theorem splitOnComma_append (t l : List Char) (h : ∀ c ∈ t, ¬ c = ',') :
    splitOnComma (t ++ ',' :: l) = t :: splitOnComma l := by
  induction t with
  | nil =>
    rw [List.nil_append, splitOnComma, if_pos rfl]
  | cons c t2 ih =>
    rw [List.cons_append]
    exact splitOnComma_cons_of_cons c _ (h c (by simp)) t2 (splitOnComma l)
      (ih (fun d hd => h d (by simp [hd])))

theorem split_join_tokens (x : Int) (xt : List Int) :
    splitOnComma (joinCommaSpace ((x :: xt).map intReprChars))
      = intReprChars x :: xt.map (fun k => ' ' :: intReprChars k) := by
  induction xt generalizing x with
  | nil =>
    simp only [List.map_cons, List.map_nil, joinCommaSpace]
    exact splitOnComma_no_comma _ (intReprChars_no_comma x)
  | cons y yt ih =>
    simp only [List.map_cons, joinCommaSpace]
    rw [splitOnComma_append _ _ (intReprChars_no_comma x)]
    congr 1
    have ihy := ih y
    simp only [List.map_cons] at ihy
    exact splitOnComma_cons_of_cons ' ' _ (by decide) _ _ ihy

theorem trimChars_bracketed (mid : List Char) :
    trimChars ('[' :: (mid ++ [']'])) = '[' :: (mid ++ [']']) := by
  have h1 : trimLeft ('[' :: (mid ++ [']'])) = '[' :: (mid ++ [']']) := by
    simp [trimLeft, List.dropWhile_cons, show ('[' : Char).isWhitespace = false from rfl]
  rw [trimChars, h1]
  have h2 : ('[' :: (mid ++ [']'])).reverse = ']' :: (mid.reverse ++ ['[']) := by
    simp
  rw [h2, List.dropWhile_cons]
  simp only [show (']' : Char).isWhitespace = false from rfl]
  simp only [Bool.false_eq_true, if_false]
  rw [← h2, List.reverse_reverse]

theorem mem_joinCommaSpace_head (t : List Char) (ts : List (List Char)) (c : Char)
    (hc : c ∈ t) : c ∈ joinCommaSpace (t :: ts) := by
  cases ts with
  | nil => simpa [joinCommaSpace] using hc
  | cons t2 ts2 => simp [joinCommaSpace, hc]

theorem parseTokens_space_tokens (xt : List Int) :
    parseTokens (xt.map (fun k => ' ' :: intReprChars k)) = some xt := by
  induction xt with
  | nil => rfl
  | cons y yt ih =>
    simp [parseTokens, pyInt_cons_space, pyInt_intReprChars, ih]

theorem parseTokens_join (x : Int) (xt : List Int) :
    parseTokens (splitOnComma (joinCommaSpace ((x :: xt).map intReprChars)))
      = some (x :: xt) := by
  rw [split_join_tokens]
  simp [parseTokens, pyInt_intReprChars, parseTokens_space_tokens xt]

theorem evalIntList_reprIntList (xs : List Int) : evalIntList (reprIntList xs) = some xs := by
  cases xs with
  | nil => rfl
  | cons x xt =>
    have hs : (reprIntList (x :: xt)).toList
        = '[' :: (joinCommaSpace ((x :: xt).map intReprChars) ++ [']']) := rfl
    obtain ⟨c0, t0, h0⟩ :=
      List.exists_cons_of_ne_nil (intReprChars_ne_nil x)
    have hmem : c0 ∈ joinCommaSpace ((x :: xt).map intReprChars) := by
      apply mem_joinCommaSpace_head
      rw [h0]
      simp
    have hne : trimChars (joinCommaSpace ((x :: xt).map intReprChars)) ≠ [] :=
      trimChars_ne_nil _ c0 hmem (intReprChars_not_ws x c0 (by rw [h0]; simp))
    rw [evalIntList, hs, trimChars_bracketed]
    have hrev : (joinCommaSpace ((x :: xt).map intReprChars) ++ [']']).reverse
        = ']' :: (joinCommaSpace ((x :: xt).map intReprChars)).reverse := by
      simp
    simp only [hrev, List.reverse_reverse]
    rw [if_neg hne]
    exact parseTokens_join x xt

theorem reprIntList_ne (xs : List Int) (t : String) (h : t.toList.head? ≠ some '[') :
    reprIntList xs ≠ t := by
  intro e
  apply h
  rw [← e]
  rfl

theorem pdNaText_reprIntList (xs : List Int) : pdNaText (reprIntList xs) = false := by
  by_contra hb
  rw [Bool.not_eq_false, pdNaText] at hb
  simp only [Bool.or_eq_true, decide_eq_true_eq] at hb
  have hhd : (reprIntList xs).toList.head? = some '[' := rfl
  rcases hb with
      ((((((((((((((((((h|h)|h)|h)|h)|h)|h)|h)|h)|h)|h)|h)|h)|h)|h)|h)|h)|h)|h) <;>
    · rw [h] at hhd
      exact absurd hhd (by decide)

theorem pdIsIntText_reprIntList (xs : List Int) : pdIsIntText (reprIntList xs) = false := by
  have ht : (reprIntList xs).toList
      = '[' :: (joinCommaSpace (xs.map intReprChars) ++ [']']) := rfl
  rw [pdIsIntText, ht]
  simp [pdIntBody]

theorem pdIsIntText_all_numeric (s : String) (h : pdIsIntText s = true) :
    ∀ c ∈ s.toList, pdNumericChar c = true := by
  rw [pdIsIntText] at h
  cases hl : s.toList with
  | nil => simp
  | cons c rest =>
    rw [hl] at h
    simp only [pdIntBody] at h
    intro d hd
    split at h
    · rename_i hsign
      rcases List.mem_cons.mp hd with rfl | hd2
      · rcases (by simpa using hsign : d = '+' ∨ d = '-') with rfl | rfl
        · decide
        · decide
      · have hb : rest.all Char.isDigit = true := by
          revert h
          cases rest.isEmpty <;> cases hall : rest.all Char.isDigit <;> simp_all
        have hdig := List.all_eq_true.mp hb d hd2
        simp [pdNumericChar, hdig]
    · have hdig := List.all_eq_true.mp h d hd
      simp [pdNumericChar, hdig]

theorem pdPlainText_reads_back (s : String) (h : pdPlainText s = true) :
    pdNaText s = false ∧ pdIsIntText s = false := by
  rw [pdPlainText] at h
  simp only [Bool.and_eq_true] at h
  obtain ⟨⟨hna, _⟩, hany⟩ := h
  refine ⟨by simpa using hna, ?_⟩
  by_contra hint
  rw [Bool.not_eq_false] at hint
  obtain ⟨c, hc, hcp⟩ := List.any_eq_true.mp hany
  have hnum := pdIsIntText_all_numeric s hint c hc
  simp [hnum] at hcp

theorem readColumn_object (cells : List String)
    (h : ∀ s ∈ cells, pdNaText s = false ∧ pdIsIntText s = false) :
    readColumn cells = cells.map PdValue.str := by
  cases cells with
  | nil => rfl
  | cons c rest =>
    have hc := h c (by simp)
    simp only [readColumn]
    rw [if_neg (by simp [List.all_cons, hc.2])]
    apply List.map_congr_left
    intro s hs
    simp [(h s hs).1]

theorem zipCols_map {α : Type} (f g k : α → PdValue) (l : List α) :
    zipCols (l.map f) (l.map g) (l.map k) = l.map (fun a => ⟨f a, g a, k a⟩) := by
  induction l with
  | nil => rfl
  | cons a t ih => simp [zipCols, ih]

theorem readCSV_export (rows : List Row)
    (hn : ∀ r ∈ rows, pdPlainText r.Name = true)
    (hr : ∀ r ∈ rows, pdPlainText r.Roll = true) :
    readCSV (exportCSV rows)
      = rows.map (fun r =>
          ⟨PdValue.str r.Name, PdValue.str r.Roll, PdValue.str (reprIntList r.Marks)⟩) := by
  rw [readCSV]
  rw [show (exportCSV rows).map CsvRow.Name = rows.map Row.Name from by
    simp [exportCSV, List.map_map, Function.comp_def]]
  rw [show (exportCSV rows).map CsvRow.Roll = rows.map Row.Roll from by
    simp [exportCSV, List.map_map, Function.comp_def]]
  rw [show (exportCSV rows).map CsvRow.Marks = rows.map fun r => reprIntList r.Marks from by
    simp [exportCSV, List.map_map, Function.comp_def]]
  rw [readColumn_object _ (by
    intro s hs
    obtain ⟨r, hrm, rfl⟩ := List.mem_map.mp hs
    exact pdPlainText_reads_back _ (hn r hrm))]
  rw [readColumn_object _ (by
    intro s hs
    obtain ⟨r, hrm, rfl⟩ := List.mem_map.mp hs
    exact pdPlainText_reads_back _ (hr r hrm))]
  rw [readColumn_object _ (by
    intro s hs
    obtain ⟨r, hrm, rfl⟩ := List.mem_map.mp hs
    exact ⟨pdNaText_reprIntList _, pdIsIntText_reprIntList _⟩)]
  rw [List.map_map, List.map_map, List.map_map]
  exact zipCols_map _ _ _ rows

theorem importRows_strRows (m0 : StudentManager) (rows : List Row) :
    importRows m0 (rows.map (fun r =>
        ⟨PdValue.str r.Name, PdValue.str r.Roll, PdValue.str (reprIntList r.Marks)⟩))
      = .ok ⟨m0.students ++ rows.map (fun r => ⟨r.Name, r.Roll, r.Marks, .normal⟩)⟩ := by
  induction rows generalizing m0 with
  | nil => simp [importRows]
  | cons r rest ih =>
    rw [List.map_cons, importRows]
    dsimp only [pdValueText]
    rw [evalIntList_reprIntList]
    dsimp only []
    rw [ih]
    simp [StudentManager.add_student]

/-- C6 counterexample: a store whose single record has the numeric-text
roll "007".  On import, `pd.read_csv` sees an all-integer Roll column
and materializes int64 7, so the imported record's roll is "7"
(Python's rendering of the int), not "007" — the claimed universal
Name/Roll/Marks round trip fails on the Roll field. -/
theorem csv_round_trip_counterexample :
    importCSV StudentManager.empty
        (exportCSV (StudentManager.to_dataframe ⟨[⟨"a", "007", [80, 90], .normal⟩]⟩))
      = .ok ⟨[⟨"a", "7", [80, 90], .normal⟩]⟩
      ∧ ([⟨"a", "7", [80, 90], .normal⟩] : List Student)
          ≠ [⟨"a", "007", [80, 90], .normal⟩] := by
  exact ⟨by decide, by decide⟩

/-- C6 amended: for every non-empty store all of whose records' names
and rolls are text the CSV reader keeps verbatim (non-empty, not NA
tokens, not numeric-, boolean- or infinity-like), exporting the table
and importing that CSV back appends, in order, one record per original
record with the very same name, roll and marks; every imported record
is constructed as a plain `Student` — the standard policy — whatever
the original record's policy was, so the Grade column is re-derived on
the next projection and is not read back from the file.  (Without the
text-surviving hypothesis the round trip fails: empty cells come back
as NaN and numeric-like rolls as integers.) -/
theorem csv_round_trip (m m0 : StudentManager) (h : m.students ≠ [])
    (hplain : ∀ s ∈ m.students, pdPlainText s.name = true ∧ pdPlainText s.roll = true) :
    importCSV m0 (exportCSV m.to_dataframe)
      = .ok ⟨m0.students
          ++ m.students.map (fun s => ⟨s.name, s.roll, s.marks, .normal⟩)⟩ := by
  rw [importCSV, readCSV_export _ ?hn ?hr, importRows_strRows]
  case hn =>
    intro r hrm
    simp only [StudentManager.to_dataframe] at hrm
    obtain ⟨s, hs, rfl⟩ := List.mem_map.mp hrm
    exact (hplain s hs).1
  case hr =>
    intro r hrm
    simp only [StudentManager.to_dataframe] at hrm
    obtain ⟨s, hs, rfl⟩ := List.mem_map.mp hrm
    exact (hplain s hs).2
  simp [StudentManager.to_dataframe, List.map_map, Function.comp_def]

/-- C6 witness: the amended theorem instantiated at a one-record store
whose record is a graduate student with a non-numeric roll; the
re-imported record is the same data with the standard policy. -/
theorem csv_round_trip_witness :
    importCSV StudentManager.empty
        (exportCSV (StudentManager.to_dataframe ⟨[⟨"a", "r1", [80, 90], .graduate⟩]⟩))
      = .ok ⟨StudentManager.empty.students
          ++ ([⟨"a", "r1", [80, 90], .graduate⟩] : List Student).map
            (fun s => ⟨s.name, s.roll, s.marks, .normal⟩)⟩ :=
  csv_round_trip ⟨[⟨"a", "r1", [80, 90], .graduate⟩]⟩ StudentManager.empty (by simp)
    (by decide)

end Dashboard
